import Mathlib

/-!
Shallow embedding of the orbtk grid layout (`src/layout/grid.rs`).

The grid layout is a cooperative, re-entrant layout step: it is called once
per pass with no child measurement, requests its children one at a time
(`RequestChild`), and finishes with its own resolved size (`Size`).  Column
geometry (auto widths measured from children, fixed widths, stretch
distribution, offset accumulation) is computed once at the start of a pass
and cached.

`f64` values are modelled as rationals (`ℚ`).  Partial operations of the
source (slice indexing, `Option::unwrap`) are modelled by `Option`-valued
functions: a `none` result marks a run that would panic.

The `Margin`, `Constraint`, alignment and geometry components used by
`grid.rs` are not among the provided sources; they are modelled from the
spec (§3, §4.3) and marked as such in their doc comments.
-/

namespace Orbtk

/-- Modelled from the spec: the `Margin` component (§3), four-sided spacing
whose source file is not provided.  Missing components default to zero. -/
structure Margin where
  left : ℚ
  top : ℚ
  right : ℚ
  bottom : ℚ
deriving DecidableEq

def Margin.default : Margin := ⟨0, 0, 0, 0⟩

/-- Modelled from the spec: the alignment variants (§3).  Scenario C fixes
the neutral default to `Start`. -/
inductive Alignment where
  | Start
  | Center
  | End
  | Stretch
deriving DecidableEq

def Alignment.default : Alignment := Alignment.Start

/-- Modelled from the spec: `align_length` (§4.3) — `Stretch` consumes the
available space minus both margins, any other alignment keeps the requested
length. -/
def Alignment.align_length (a : Alignment) (available requested mnear mfar : ℚ) : ℚ :=
  match a with
  | Alignment.Stretch => available - mnear - mfar
  | _ => requested

/-- Modelled from the spec: `align_offset` (§4.3). -/
def Alignment.align_offset (a : Alignment) (available length mnear mfar : ℚ) : ℚ :=
  match a with
  | Alignment.Start => mnear
  | Alignment.End => available - length - mfar
  | Alignment.Center => (available - length) / 2
  | Alignment.Stretch => mnear

def Alignment.align_width (a : Alignment) (available requested : ℚ) (m : Margin) : ℚ :=
  a.align_length available requested m.left m.right

def Alignment.align_height (a : Alignment) (available requested : ℚ) (m : Margin) : ℚ :=
  a.align_length available requested m.top m.bottom

def Alignment.align_x (a : Alignment) (available length : ℚ) (m : Margin) : ℚ :=
  a.align_offset available length m.left m.right

def Alignment.align_y (a : Alignment) (available length : ℚ) (m : Margin) : ℚ :=
  a.align_offset available length m.top m.bottom

/-- Modelled from the spec: the `Constraint` component (§3) — per-axis
minimum / preferred / maximum extents, whose source file is not provided.
`perform` resolves a requested size by clamping each axis into its
`[min, max]` interval. -/
structure Constraint where
  min_width : ℚ
  max_width : ℚ
  width : ℚ
  min_height : ℚ
  max_height : ℚ
  height : ℚ
deriving DecidableEq

def Constraint.default : Constraint := ⟨0, 0, 0, 0, 0, 0⟩

def clampAxis (v mn mx : ℚ) : ℚ :=
  if v < mn then mn else if mx < v then mx else v

def Constraint.perform (c : Constraint) (s : ℚ × ℚ) : ℚ × ℚ :=
  (clampAxis s.1 c.min_width c.max_width, clampAxis s.2 c.min_height c.max_height)

def Constraint.set_width (c : Constraint) (w : ℚ) : Constraint := { c with width := w }

def Constraint.set_height (c : Constraint) (h : ℚ) : Constraint := { c with height := h }

/-- The width policy of a grid column (`ColumnWidth` in the source). -/
inductive ColumnWidth where
  | Width (width : ℚ)
  | Auto
  | Stretch
deriving DecidableEq

/-- A grid column: its width policy plus the current width computed during a
pass (`Column` in the source). -/
structure Column where
  width : ColumnWidth
  current_width : ℚ
deriving DecidableEq

def Column.set_current_width (c : Column) (w : ℚ) : Column := { c with current_width := w }

/-- A node's resolved rectangle (`Bounds` in the source). -/
structure Bounds where
  x : ℚ
  y : ℚ
  width : ℚ
  height : ℚ
deriving DecidableEq

def Bounds.set_x (b : Bounds) (v : ℚ) : Bounds := { b with x := v }

def Bounds.set_y (b : Bounds) (v : ℚ) : Bounds := { b with y := v }

def Bounds.set_width (b : Bounds) (v : ℚ) : Bounds := { b with width := v }

/-- The slice of the `EntityComponentManager` the grid layout reads and
writes.  Entities are natural numbers; each component is a fallible lookup
(`borrow_component` → `Option`). -/
structure Store where
  constraint : ℕ → Option Constraint
  margin : ℕ → Option Margin
  horizontal_alignment : ℕ → Option Alignment
  vertical_alignment : ℕ → Option Alignment
  bounds : ℕ → Option Bounds
  columns : ℕ → Option (List Column)
  grid_column : ℕ → Option ℕ
  column_span : ℕ → Option ℕ

instance : Inhabited Store :=
  ⟨⟨fun _ => none, fun _ => none, fun _ => none, fun _ => none, fun _ => none,
    fun _ => none, fun _ => none, fun _ => none⟩⟩

/-- `borrow_mut_component::<Bounds>` followed by the setters: replace the
child's bounds, leaving every other component untouched. -/
def Store.set_bounds (s : Store) (e : ℕ) (b : Bounds) : Store :=
  { s with bounds := fun i => if i = e then some b else s.bounds i }

/-- `borrow_mut_component::<Columns>`: replace the entity's columns. -/
def Store.set_columns (s : Store) (e : ℕ) (cols : List Column) : Store :=
  { s with columns := fun i => if i = e then some cols else s.columns i }

/-- Helper `get_vertical_alignment` of `grid.rs`. -/
def get_vertical_alignment (entity : ℕ) (ecm : Store) : Alignment :=
  match ecm.vertical_alignment entity with
  | some a => a
  | none => Alignment.default

/-- Helper `get_horizontal_alignment` of `grid.rs`. -/
def get_horizontal_alignment (entity : ℕ) (ecm : Store) : Alignment :=
  match ecm.horizontal_alignment entity with
  | some a => a
  | none => Alignment.default

/-- Helper `get_margin` of `grid.rs`. -/
def get_margin (entity : ℕ) (ecm : Store) : Margin :=
  match ecm.margin entity with
  | some m => m
  | none => Margin.default

/-- The per-pass column cache `columns_cache : BTreeMap<usize, (f64, f64)>`:
column index → (x offset, width). -/
abbrev ColumnsCache := ℕ → Option (ℚ × ℚ)

def ColumnsCache.empty : ColumnsCache := fun _ => none

def ColumnsCache.insert (c : ColumnsCache) (k : ℕ) (v : ℚ × ℚ) : ColumnsCache :=
  fun i => if i = k then some v else c i

/-- The mutable per-pass state of a `GridLayout` value: the child cursor and
the column cache. -/
structure GridState where
  current_child : ℕ
  columns_cache : ColumnsCache

instance : Inhabited GridState := ⟨⟨0, ColumnsCache.empty⟩⟩

/-- The two outcomes of one layout step (`LayoutResult` in the source). -/
inductive LayoutResult where
  | RequestChild (entity : ℕ) (constraint : Constraint)
  | Size (size : ℚ × ℚ)
deriving DecidableEq

/-- The width-accumulation loop of `get_column_x_and_width`: sum the cached
widths of `span` consecutive columns starting at `i`, stopping at the first
missing cache entry. -/
def span_width (cache : ColumnsCache) : ℕ → ℕ → ℚ
  | _, 0 => 0
  | i, n + 1 =>
    match cache i with
    | some cw => cw.2 + span_width cache (i + 1) n
    | none => 0

/-- `GridLayout::get_column_x_and_width`: the x offset of `grid_column` (0 if
uncached) and the available width — a span sum when the child carries a
`ColumnSpan` component, otherwise the single cached column width. -/
def get_column_x_and_width (cache : ColumnsCache) (entity : ℕ) (ecm : Store)
    (grid_column : ℕ) : ℚ × ℚ :=
  let column := cache grid_column
  let x := match column with | some c => c.1 | none => 0
  let width :=
    match ecm.column_span entity with
    | some column_span => span_width cache grid_column column_span
    | none =>
      match column with
      | some c => c.2
      | none => 0
  (x, width)

/-- One iteration of the auto-width scan (`grid.rs` lines 180–196): a child
with a `GridColumn` into an `Auto` column whose stored current width is below
the child's constraint width overwrites the map entry for that column with
`constraint.width + margin.left + margin.right`. -/
def auto_width_step (entity : ℕ) (ecm : Store) (widths : ℕ → Option ℚ)
    (child : ℕ) : ℕ → Option ℚ :=
  let margin := get_margin child ecm
  match ecm.grid_column child with
  | none => widths
  | some gc =>
    match ecm.constraint child with
    | none => widths
    | some c =>
      match ecm.columns entity with
      | none => widths
      | some cols =>
        match cols.get? gc with
        | none => widths
        | some column =>
          if column.width = ColumnWidth.Auto ∧ column.current_width < c.width then
            fun i => if i = gc then some (c.width + margin.left + margin.right) else widths i
          else widths

/-- The full auto-width scan over the children, in list order, starting from
the empty `column_widths` map. -/
def auto_column_widths (entity : ℕ) (ecm : Store) (children : List ℕ) : ℕ → Option ℚ :=
  children.foldl (auto_width_step entity ecm) (fun _ => none)

/-- Applies the scanned auto widths: each map entry overwrites the current
width of the column at its index (`columns.get_mut`), walking the columns
from index `i` upward. -/
def apply_auto_widths_from (widths : ℕ → Option ℚ) : ℕ → List Column → List Column
  | _, [] => []
  | i, column :: rest =>
    (match widths i with
     | some w => column.set_current_width w
     | none => column) :: apply_auto_widths_from widths (i + 1) rest

/-- Applies the scanned auto widths to the whole column list. -/
def apply_auto_widths (widths : ℕ → Option ℚ) (cols : List Column) : List Column :=
  apply_auto_widths_from widths 0 cols

/-- The fixed-width pass: every `Width(w)` column has its current width set
to `w`. -/
def apply_fixed_widths (cols : List Column) : List Column :=
  cols.map fun column =>
    match column.width with
    | ColumnWidth.Width w => column.set_current_width w
    | _ => column

/-- `used_width`: the sum of the current widths of all non-`Stretch`
columns. -/
def used_width : List Column → ℚ
  | [] => 0
  | column :: rest =>
    (if column.width = ColumnWidth.Stretch then 0 else column.current_width) + used_width rest

/-- The number of `Stretch` columns. -/
def stretch_count : List Column → ℕ
  | [] => 0
  | column :: rest =>
    (if column.width = ColumnWidth.Stretch then 1 else 0) + stretch_count rest

/-- Every `Stretch` column has its current width set to `stretch_width`. -/
def apply_stretch_widths (stretch_width : ℚ) (cols : List Column) : List Column :=
  cols.map fun column =>
    match column.width with
    | ColumnWidth.Stretch => column.set_current_width stretch_width
    | _ => column

/-- The stretch-distribution step: the remaining width
`size_width - used_width` is divided by the number of `Stretch` columns and
assigned to each of them. -/
def stretch_distribute (size_width : ℚ) (cols : List Column) : List Column :=
  apply_stretch_widths ((size_width - used_width cols) / (stretch_count cols : ℚ)) cols

/-- The offset-accumulation loop (`grid.rs` lines 246–255): walk the given
index list, inserting `(running offset, current width)` per column and
advancing the offset.  A missing index (the `unwrap` of the source) yields
`none`. -/
def build_cache_step (cols : List Column) :
    List ℕ → ℚ × ColumnsCache → Option (ℚ × ColumnsCache)
  | [], acc => some acc
  | i :: rest, (column_sum, cache) =>
    match cols.get? i with
    | none => none
    | some column =>
      build_cache_step cols rest
        (column_sum + column.current_width,
         cache.insert i (column_sum, column.current_width))

/-- The whole offset accumulation over `0..columns.len()`. -/
def build_columns_cache (cols : List Column) (cache : ColumnsCache) : Option ColumnsCache :=
  (build_cache_step cols (List.range cols.length) (0, cache)).map Prod.snd

/-- Column geometry computation (`grid.rs` lines 174–260): scan auto widths
from the children, then — provided the container owns a non-empty `Columns`
component — apply auto, fixed and stretch widths and build the offset
cache. -/
def compute_column_geometry (entity : ℕ) (ecm : Store) (children : List ℕ)
    (size_width : ℚ) (cache : ColumnsCache) : Option (Store × ColumnsCache) :=
  let column_widths := auto_column_widths entity ecm children
  match ecm.columns entity with
  | none => some (ecm, cache)
  | some cols =>
    if cols.length = 0 then some (ecm, cache)
    else
      let cols1 := apply_auto_widths column_widths cols
      let cols2 := apply_fixed_widths cols1
      let cols3 := stretch_distribute size_width cols2
      match build_columns_cache cols3 cache with
      | none => none
      | some cache2 => some (ecm.set_columns entity cols3, cache2)

/-- The container's own resolved size (`grid.rs` lines 90–98): the node's
constraint `perform`ed on the alignment of its own requested extents within
the parent constraint.  It mentions neither the children nor the child
measurement. -/
def resolved_size (entity : ℕ) (ecm : Store) (parent_constraint : Constraint) : ℚ × ℚ :=
  let constraint := (ecm.constraint entity).getD Constraint.default
  let margin := (ecm.margin entity).getD Margin.default
  let vertical_alignment := get_vertical_alignment entity ecm
  let horizontal_alignment := get_horizontal_alignment entity ecm
  constraint.perform
    (horizontal_alignment.align_width parent_constraint.width constraint.width margin,
     vertical_alignment.align_height parent_constraint.height constraint.height margin)

/-- The constraint value carried by every `RequestChild` outcome: the
container's own constraint with width and height overwritten by the resolved
size (`grid.rs` lines 100–101). -/
def carried_constraint (entity : ℕ) (ecm : Store) (parent_constraint : Constraint) : Constraint :=
  let size := resolved_size entity ecm parent_constraint
  (((ecm.constraint entity).getD Constraint.default).set_width size.1).set_height size.2

/-- `non_rows_and_columns` of the measurement branch: true when the
container has no `Columns` component or an empty one ("plain mode"). -/
def non_rows_and_columns (entity : ℕ) (ecm : Store) : Bool :=
  match ecm.columns entity with
  | some cols => cols.length == 0
  | none => true

/-- The store effect of one measurement return (`grid.rs` lines 108–156):
write the measured child's `Bounds` — x and y in plain mode; x, width and y
in grid mode. -/
def measure_store_update (cache : ColumnsCache) (entity child : ℕ) (ecm : Store)
    (size cs : ℚ × ℚ) : Store :=
  let c_margin := (ecm.margin child).getD Margin.default
  let c_vertical_alignment := get_vertical_alignment child ecm
  let c_horizontal_alignment := get_horizontal_alignment child ecm
  if non_rows_and_columns entity ecm then
    match ecm.bounds child with
    | some c_bounds =>
      ecm.set_bounds child
        ((c_bounds.set_x (c_horizontal_alignment.align_x size.1 cs.1 c_margin)).set_y
          (c_vertical_alignment.align_y size.2 cs.2 c_margin))
    | none => ecm
  else
    let grid_column := (ecm.grid_column child).getD 0
    let xw := get_column_x_and_width cache child ecm grid_column
    match ecm.bounds child with
    | some c_bounds =>
      ecm.set_bounds child
        (((c_bounds.set_x
            (xw.1 + c_horizontal_alignment.align_x size.1 cs.1 c_margin)).set_width
            (c_horizontal_alignment.align_width xw.2 cs.1 c_margin)).set_y
          (c_vertical_alignment.align_y size.2 cs.2 c_margin))
    | none => ecm

/-- `GridLayout::layout`.  A `none` result marks a run that would panic
(out-of-bounds child indexing, or the `unwrap` inside the offset loop). -/
def layout (self : GridState) (entity : ℕ) (ecm : Store)
    (parent_constraint : Constraint) (children : List ℕ)
    (child_size : Option (ℚ × ℚ)) : Option (LayoutResult × GridState × Store) :=
  let size := resolved_size entity ecm parent_constraint
  let constraint := carried_constraint entity ecm parent_constraint
  match child_size with
  | some cs =>
    match children.get? self.current_child with
    | none => none
    | some child =>
      let ecm2 := measure_store_update self.columns_cache entity child ecm size cs
      let cursor := self.current_child + 1
      let self2 : GridState := { self with current_child := cursor }
      if hc : cursor < children.length then
        some (LayoutResult.RequestChild (children.get ⟨cursor, hc⟩) constraint, self2, ecm2)
      else
        some (LayoutResult.Size size, self2, ecm2)
  | none =>
    if children.isEmpty then
      some (LayoutResult.Size size, self, ecm)
    else
      let self2 : GridState := { current_child := 0, columns_cache := ColumnsCache.empty }
      match compute_column_geometry entity ecm children size.1 self2.columns_cache with
      | none => none
      | some (ecm2, cache2) =>
        let self3 : GridState := { self2 with columns_cache := cache2 }
        match children.get? self3.current_child with
        | none => none
        | some child => some (LayoutResult.RequestChild child constraint, self3, ecm2)

/-- The current width of column `i`, 0 when out of range (specification
helper). -/
def col_width (cols : List Column) (i : ℕ) : ℚ :=
  ((cols.get? i).map Column.current_width).getD 0

/-- The accumulated offset of column `i`: the sum of the current widths of
all earlier columns (specification helper). -/
def col_offset (cols : List Column) : ℕ → ℚ
  | 0 => 0
  | i + 1 => col_offset cols i + col_width cols i

/-- The sum of all columns' current widths (specification helper). -/
def total_width : List Column → ℚ
  | [] => 0
  | column :: rest => column.current_width + total_width rest

/-- The driver loop after the initial call of a pass: while the outcome is
`RequestChild e _`, measure `e` (the measurement oracle stands for the
child's own recursive layout) and call back in.  Returns the visited
children in request order, the final size, and the final state and store.
`none` marks a panic or fuel exhaustion. -/
def run_pass_from (entity : ℕ) (parent_constraint : Constraint) (children : List ℕ)
    (measure : ℕ → ℚ × ℚ) :
    ℕ → GridState → Store → LayoutResult → Option (List ℕ × (ℚ × ℚ) × GridState × Store)
  | _, st, ecm, LayoutResult.Size s => some ([], s, st, ecm)
  | 0, _, _, LayoutResult.RequestChild _ _ => none
  | fuel + 1, st, ecm, LayoutResult.RequestChild e _ =>
    match layout st entity ecm parent_constraint children (some (measure e)) with
    | none => none
    | some (res, st2, ecm2) =>
      match run_pass_from entity parent_constraint children measure fuel st2 ecm2 res with
      | none => none
      | some (visited, s, st3, ecm3) => some (e :: visited, s, st3, ecm3)

/-- One complete pass under the driver contract: first call with no child
measurement, then feed back one measurement per requested child until
`Size`. -/
def run_pass (st : GridState) (entity : ℕ) (ecm : Store) (parent_constraint : Constraint)
    (children : List ℕ) (measure : ℕ → ℚ × ℚ) :
    Option (List ℕ × (ℚ × ℚ) × GridState × Store) :=
  match layout st entity ecm parent_constraint children none with
  | none => none
  | some (res, st2, ecm2) =>
    run_pass_from entity parent_constraint children measure (children.length + 1) st2 ecm2 res

/-- The 3-column grid of P5: widths 10, 20 and 40, all already current. -/
def colsC7 : List Column :=
  [⟨ColumnWidth.Width 10, 10⟩, ⟨ColumnWidth.Width 20, 20⟩, ⟨ColumnWidth.Width 40, 40⟩]

/-- A store whose node 7 carries `ColumnSpan 5` and nothing else. -/
def ecmC7 : Store where
  constraint := fun _ => none
  margin := fun _ => none
  horizontal_alignment := fun _ => none
  vertical_alignment := fun _ => none
  bounds := fun _ => none
  columns := fun _ => none
  grid_column := fun _ => none
  column_span := fun e => if e = 7 then some 5 else none

/-- Two stretch columns around a fixed one, for the C4 witness. -/
def colsC4 : List Column :=
  [⟨ColumnWidth.Stretch, 0⟩, ⟨ColumnWidth.Width 50, 50⟩, ⟨ColumnWidth.Stretch, 7⟩]

/-- A container constraint resolving to width 200 and height 100. -/
def c200 : Constraint := ⟨0, 1000, 200, 0, 1000, 100⟩

/-- A parent constraint offering 400 by 400. -/
def pc400 : Constraint := ⟨0, 1000, 400, 0, 1000, 400⟩

/-- Two `Stretch` columns with current width 0 (Scenario B). -/
def colsStretch2 : List Column :=
  [⟨ColumnWidth.Stretch, 0⟩, ⟨ColumnWidth.Stretch, 0⟩]

/-- Three columns for the C6 witness. -/
def colsC6 : List Column :=
  [⟨ColumnWidth.Width 10, 10⟩, ⟨ColumnWidth.Width 20, 20⟩, ⟨ColumnWidth.Stretch, 5⟩]

/-- Scenario B store: container 0 with `[Stretch, Stretch]` columns and the
`c200` constraint. -/
def ecmC2 : Store where
  constraint := fun e => if e = 0 then some c200 else none
  margin := fun _ => none
  horizontal_alignment := fun _ => none
  vertical_alignment := fun _ => none
  bounds := fun _ => none
  columns := fun e => if e = 0 then some colsStretch2 else none
  grid_column := fun _ => none
  column_span := fun _ => none

/-- A plain-mode container 0 with constraint `c200` and nothing else. -/
def ecmC3 : Store where
  constraint := fun e => if e = 0 then some c200 else none
  margin := fun _ => none
  horizontal_alignment := fun _ => none
  vertical_alignment := fun _ => none
  bounds := fun _ => none
  columns := fun _ => none
  grid_column := fun _ => none
  column_span := fun _ => none

/-- A store where only child 1 owns a `Bounds` component. -/
def ecmC8 : Store where
  constraint := fun _ => none
  margin := fun _ => none
  horizontal_alignment := fun _ => none
  vertical_alignment := fun _ => none
  bounds := fun e => if e = 1 then some ⟨1, 2, 3, 4⟩ else none
  columns := fun _ => none
  grid_column := fun _ => none
  column_span := fun _ => none

/-- A store for the C9 witness: container 0 with `c200`, no children data. -/
def ecmC9a : Store where
  constraint := fun e => if e = 0 then some c200 else none
  margin := fun _ => none
  horizontal_alignment := fun _ => none
  vertical_alignment := fun _ => none
  bounds := fun _ => none
  columns := fun _ => none
  grid_column := fun _ => none
  column_span := fun _ => none

/-- Like `ecmC9a` on the container's own components, but with extra
children-related data on node 3. -/
def ecmC9b : Store where
  constraint := fun e => if e = 0 then some c200 else none
  margin := fun _ => none
  horizontal_alignment := fun _ => none
  vertical_alignment := fun _ => none
  bounds := fun e => if e = 3 then some ⟨0, 0, 0, 0⟩ else none
  columns := fun _ => none
  grid_column := fun e => if e = 3 then some 0 else none
  column_span := fun e => if e = 3 then some 2 else none

/-- C1 failing input: container 0 with one `Auto` column (current width 0);
children 1 and 2 both mapped to it with constraint widths 80 and then 50,
zero margins. -/
def ecmC1 : Store where
  constraint := fun e =>
    if e = 1 then some ⟨0, 1000, 80, 0, 1000, 0⟩
    else if e = 2 then some ⟨0, 1000, 50, 0, 1000, 0⟩
    else none
  margin := fun _ => none
  horizontal_alignment := fun _ => none
  vertical_alignment := fun _ => none
  bounds := fun _ => none
  columns := fun e => if e = 0 then some [⟨ColumnWidth.Auto, 0⟩] else none
  grid_column := fun e => if e = 1 then some 0 else if e = 2 then some 0 else none
  column_span := fun _ => none

/-- The columns of the C5 failing input: one `Auto` column and one fixed
column of width 30. -/
def colsC5 : List Column := [⟨ColumnWidth.Auto, 0⟩, ⟨ColumnWidth.Width 30, 0⟩]

/-- C5 failing input: container 0 (width 200) with `colsC5`; children 1 and
2 in column 0 with constraint widths 80 and 50, child 3 in column 1. -/
def ecmC5 : Store where
  constraint := fun e =>
    if e = 0 then some c200
    else if e = 1 then some ⟨0, 1000, 80, 0, 1000, 0⟩
    else if e = 2 then some ⟨0, 1000, 50, 0, 1000, 0⟩
    else if e = 3 then some ⟨0, 1000, 10, 0, 1000, 0⟩
    else none
  margin := fun _ => none
  horizontal_alignment := fun _ => none
  vertical_alignment := fun _ => none
  bounds := fun e => if e = 1 ∨ e = 2 ∨ e = 3 then some ⟨0, 0, 0, 0⟩ else none
  columns := fun e => if e = 0 then some colsC5 else none
  grid_column := fun e =>
    if e = 1 then some 0 else if e = 2 then some 0 else if e = 3 then some 1 else none
  column_span := fun _ => none

/-- The measurement oracle used for the C5 passes: every child measures
(0, 0). -/
def measC5 : ℕ → ℚ × ℚ := fun _ => (0, 0)

/-! ## Characterization of the column cache -/

lemma col_offset_succ (cols : List Column) (i : ℕ) :
    col_offset cols (i + 1) = col_offset cols i + col_width cols i := rfl

lemma col_width_eq_get (cols : List Column) {i : ℕ} (h : i < cols.length) :
    col_width cols i = (cols.get ⟨i, h⟩).current_width := by
  simp [col_width, List.getElem?_eq_getElem h]

lemma build_cache_step_cons (cols : List Column) (i : ℕ) (rest : List ℕ) (s : ℚ)
    (c : ColumnsCache) :
    build_cache_step cols (i :: rest) (s, c) =
      match cols.get? i with
      | none => none
      | some column =>
        build_cache_step cols rest
          (s + column.current_width, c.insert i (s, column.current_width)) := rfl

lemma build_cache_step_spec (cols : List Column) :
    ∀ (k a : ℕ) (c : ColumnsCache), a + k ≤ cols.length →
    ∃ c2, build_cache_step cols (List.range' a k) (col_offset cols a, c) =
        some (col_offset cols (a + k), c2) ∧
      ∀ j, c2 j = if a ≤ j ∧ j < a + k then some (col_offset cols j, col_width cols j)
                  else c j := by
  intro k
  induction k with
  | zero =>
    intro a c _
    refine ⟨c, by simp [build_cache_step], ?_⟩
    intro j
    rw [if_neg (by omega)]
  | succ k ih =>
    intro a c h
    have ha : a < cols.length := by omega
    have hcol : cols.get? a = some (cols.get ⟨a, ha⟩) := List.get?_eq_get ha
    have hw : col_width cols a = (cols.get ⟨a, ha⟩).current_width := col_width_eq_get cols ha
    obtain ⟨c2, heq, hpt⟩ :=
      ih (a + 1) (c.insert a (col_offset cols a, col_width cols a)) (by omega)
    refine ⟨c2, ?_, ?_⟩
    · rw [List.range'_succ]
      simp only [build_cache_step_cons, hcol]
      rw [← hw, ← col_offset_succ, heq]
      have h3 : a + 1 + k = a + (k + 1) := by omega
      rw [h3]
    · intro j
      rw [hpt j]
      by_cases h1 : j = a
      · subst h1
        rw [if_neg (by omega), if_pos (by omega)]
        simp [ColumnsCache.insert]
      · by_cases h2 : a + 1 ≤ j ∧ j < a + 1 + k
        · rw [if_pos h2, if_pos (by omega)]
        · rw [if_neg h2, if_neg (by omega)]
          simp [ColumnsCache.insert, h1]

lemma build_columns_cache_spec (cols : List Column) (c : ColumnsCache) :
    ∃ c2, build_columns_cache cols c = some c2 ∧
      ∀ j, c2 j = if j < cols.length then some (col_offset cols j, col_width cols j)
                  else c j := by
  obtain ⟨c2, heq, hpt⟩ := build_cache_step_spec cols cols.length 0 c (by omega)
  refine ⟨c2, ?_, ?_⟩
  · unfold build_columns_cache
    rw [List.range_eq_range']
    have h0 : (0 : ℚ) = col_offset cols 0 := rfl
    rw [h0, heq]
    rfl
  · intro j
    rw [hpt j]
    by_cases hj : j < cols.length
    · rw [if_pos ⟨by omega, by omega⟩, if_pos hj]
    · rw [if_neg (by omega), if_neg hj]

lemma build_columns_cache_isSome (cols : List Column) (c : ColumnsCache) :
    (build_columns_cache cols c).isSome = true := by
  obtain ⟨c2, heq, _⟩ := build_columns_cache_spec cols c
  rw [heq]
  rfl

/-! ## Span truncation -/

lemma span_width_of_spec (cols : List Column) (c2 : ColumnsCache)
    (hpt : ∀ j, c2 j = if j < cols.length then some (col_offset cols j, col_width cols j)
                       else none) :
    ∀ (s g : ℕ), cols.length ≤ g + s → span_width c2 g s = total_width (cols.drop g) := by
  intro s
  induction s with
  | zero =>
    intro g h
    rw [List.drop_eq_nil_of_le (by omega)]
    simp [span_width, total_width]
  | succ n ih =>
    intro g h
    by_cases hg : g < cols.length
    · have hc : c2 g = some (col_offset cols g, col_width cols g) := by
        rw [hpt g, if_pos hg]
      simp only [span_width, hc]
      rw [ih (g + 1) (by omega), List.drop_eq_getElem_cons hg]
      simp only [total_width]
      rw [col_width_eq_get cols hg]
      simp
    · have hc : c2 g = none := by rw [hpt g, if_neg hg]
      simp only [span_width, hc]
      rw [List.drop_eq_nil_of_le (by omega)]
      simp [total_width]

/-- **C7** — a child whose `ColumnSpan` range runs past the end of the
columns receives as `available_width` the sum of just the cached widths of
the columns that exist from its start column on (the span is silently
truncated at the first missing cache entry); the computation is total, no
panic is possible. -/
theorem grid_span_truncation (cols : List Column) (entity : ℕ) (ecm : Store) (g s : ℕ)
    (hspan : ecm.column_span entity = some s) (h : cols.length < g + s) :
    ∃ cache, build_columns_cache cols ColumnsCache.empty = some cache ∧
      (get_column_x_and_width cache entity ecm g).2 = total_width (cols.drop g) := by
  obtain ⟨c2, heq, hpt⟩ := build_columns_cache_spec cols ColumnsCache.empty
  have hpt2 : ∀ j, c2 j = if j < cols.length
      then some (col_offset cols j, col_width cols j) else none := by
    intro j
    simpa [ColumnsCache.empty] using hpt j
  refine ⟨c2, heq, ?_⟩
  simp only [get_column_x_and_width, hspan]
  exact span_width_of_spec cols c2 hpt2 s g (by omega)

/-- Witness for C7: `GridColumn = 2`, `ColumnSpan = 5` in the 3-column grid
of P5 — the available width is the width of column 2 alone, 40. -/
theorem grid_span_truncation_witness :
    ecmC7.column_span 7 = some 5 ∧ colsC7.length < 2 + 5 ∧
      (∃ cache, build_columns_cache colsC7 ColumnsCache.empty = some cache ∧
        (get_column_x_and_width cache 7 ecmC7 2).2 = total_width (colsC7.drop 2)) ∧
      total_width (colsC7.drop 2) = 40 :=
  ⟨rfl, by decide, grid_span_truncation colsC7 7 ecmC7 2 5 rfl (by decide),
    by norm_num [colsC7, total_width]⟩

/-! ## Stretch distribution -/

@[simp] lemma width_ne_auto (w : ℚ) : (ColumnWidth.Width w = ColumnWidth.Auto) = False :=
  eq_false fun h => ColumnWidth.noConfusion h

@[simp] lemma width_ne_stretch (w : ℚ) : (ColumnWidth.Width w = ColumnWidth.Stretch) = False :=
  eq_false fun h => ColumnWidth.noConfusion h

@[simp] lemma auto_ne_width (w : ℚ) : (ColumnWidth.Auto = ColumnWidth.Width w) = False :=
  eq_false fun h => ColumnWidth.noConfusion h

@[simp] lemma auto_ne_stretch : (ColumnWidth.Auto = ColumnWidth.Stretch) = False :=
  eq_false fun h => ColumnWidth.noConfusion h

@[simp] lemma stretch_ne_width (w : ℚ) : (ColumnWidth.Stretch = ColumnWidth.Width w) = False :=
  eq_false fun h => ColumnWidth.noConfusion h

@[simp] lemma stretch_ne_auto : (ColumnWidth.Stretch = ColumnWidth.Auto) = False :=
  eq_false fun h => ColumnWidth.noConfusion h

lemma total_width_cons (col : Column) (rest : List Column) :
    total_width (col :: rest) = col.current_width + total_width rest := rfl

lemma used_width_cons (col : Column) (rest : List Column) :
    used_width (col :: rest) =
      (if col.width = ColumnWidth.Stretch then 0 else col.current_width) + used_width rest := rfl

lemma stretch_count_cons (col : Column) (rest : List Column) :
    stretch_count (col :: rest) =
      (if col.width = ColumnWidth.Stretch then 1 else 0) + stretch_count rest := rfl

lemma apply_stretch_cons (sw : ℚ) (col : Column) (rest : List Column) :
    apply_stretch_widths sw (col :: rest) =
      (match col.width with
       | ColumnWidth.Stretch => col.set_current_width sw
       | _ => col) :: apply_stretch_widths sw rest := rfl

lemma total_apply_stretch (sw : ℚ) (cols : List Column) :
    total_width (apply_stretch_widths sw cols) =
      used_width cols + (stretch_count cols : ℚ) * sw := by
  induction cols with
  | nil => simp [apply_stretch_widths, total_width, used_width, stretch_count]
  | cons col rest ih =>
    rw [apply_stretch_cons, total_width_cons, used_width_cons, stretch_count_cons]
    rcases hw : col.width with w | _ | _
    · simp only [hw, width_ne_stretch, if_false]
      rw [ih]
      push_cast
      ring
    · simp only [hw, auto_ne_stretch, if_false]
      rw [ih]
      push_cast
      ring
    · simp only [hw, if_true, eq_self_iff_true, Column.set_current_width]
      rw [ih]
      push_cast
      ring

lemma mem_apply_stretch (sw : ℚ) (cols : List Column) :
    ∀ column ∈ apply_stretch_widths sw cols,
      column.width = ColumnWidth.Stretch → column.current_width = sw := by
  intro column hmem hstretch
  unfold apply_stretch_widths at hmem
  rw [List.mem_map] at hmem
  obtain ⟨c, _, rfl⟩ := hmem
  rcases hw : c.width with w | _ | _
  · simp [hw] at hstretch
  · simp [hw] at hstretch
  · simp [hw, Column.set_current_width]

/-- **C4** — for a container of resolved width `S` whose columns split into
non-`Stretch` columns of total current width `U` (`used_width`) and at least
one `Stretch` column (`stretch_count ≥ 1`), the stretch-distribution step
gives every `Stretch` column the current width `(S - U) / k` and makes the
current widths of all columns sum exactly to `S`. -/
theorem grid_stretch_distribution_sums (size_width : ℚ) (cols : List Column)
    (h : 1 ≤ stretch_count cols) :
    (∀ column ∈ stretch_distribute size_width cols,
        column.width = ColumnWidth.Stretch →
        column.current_width = (size_width - used_width cols) / (stretch_count cols : ℚ)) ∧
      total_width (stretch_distribute size_width cols) = size_width := by
  constructor
  · intro column hmem hs
    exact mem_apply_stretch _ cols column hmem hs
  · unfold stretch_distribute
    rw [total_apply_stretch]
    have hk : (stretch_count cols : ℚ) ≠ 0 := Nat.cast_ne_zero.mpr (by omega)
    rw [mul_comm, div_mul_cancel₀ _ hk]
    ring

/-- Witness for C4: container width 200, columns `[Stretch, Fixed 50,
Stretch]` — each stretch column gets `(200 - 50) / 2 = 75` and the total is
200. -/
theorem grid_stretch_distribution_sums_witness :
    1 ≤ stretch_count colsC4 ∧
      ((∀ column ∈ stretch_distribute 200 colsC4,
          column.width = ColumnWidth.Stretch →
          column.current_width = (200 - used_width colsC4) / (stretch_count colsC4 : ℚ)) ∧
        total_width (stretch_distribute 200 colsC4) = 200) ∧
      (200 - used_width colsC4) / (stretch_count colsC4 : ℚ) = 75 :=
  ⟨by decide, grid_stretch_distribution_sums 200 colsC4 (by decide),
    by norm_num [colsC4, used_width, stretch_count]⟩

/-! ## Shape of a measurement-return call -/

lemma layout_measure_eq (st : GridState) (entity : ℕ) (ecm : Store) (pc : Constraint)
    (children : List ℕ) (m : ℚ × ℚ) (h : st.current_child < children.length) :
    layout st entity ecm pc children (some m) =
      some
        (if hc : st.current_child + 1 < children.length
         then LayoutResult.RequestChild (children.get ⟨st.current_child + 1, hc⟩)
                (carried_constraint entity ecm pc)
         else LayoutResult.Size (resolved_size entity ecm pc),
         ⟨st.current_child + 1, st.columns_cache⟩,
         measure_store_update st.columns_cache entity (children.get ⟨st.current_child, h⟩) ecm
           (resolved_size entity ecm pc) m) := by
  unfold layout
  rw [List.get?_eq_get h]
  dsimp only
  split <;> rfl

lemma measure_store_update_components (cache : ColumnsCache) (entity child : ℕ)
    (ecm : Store) (size cs : ℚ × ℚ) :
    (measure_store_update cache entity child ecm size cs).constraint = ecm.constraint ∧
    (measure_store_update cache entity child ecm size cs).margin = ecm.margin ∧
    (measure_store_update cache entity child ecm size cs).horizontal_alignment =
      ecm.horizontal_alignment ∧
    (measure_store_update cache entity child ecm size cs).vertical_alignment =
      ecm.vertical_alignment ∧
    (measure_store_update cache entity child ecm size cs).columns = ecm.columns ∧
    (measure_store_update cache entity child ecm size cs).grid_column = ecm.grid_column ∧
    (measure_store_update cache entity child ecm size cs).column_span = ecm.column_span := by
  unfold measure_store_update Store.set_bounds
  dsimp only
  split <;> split <;> exact ⟨rfl, rfl, rfl, rfl, rfl, rfl, rfl⟩

lemma measure_store_update_bounds_other (cache : ColumnsCache) (entity child : ℕ)
    (ecm : Store) (size cs : ℚ × ℚ) (e : ℕ) (he : e ≠ child) :
    (measure_store_update cache entity child ecm size cs).bounds e = ecm.bounds e := by
  unfold measure_store_update Store.set_bounds
  dsimp only
  split <;> split <;> simp [he]

lemma measure_store_update_bounds_child (cache : ColumnsCache) (entity child : ℕ)
    (ecm : Store) (size cs : ℚ × ℚ) :
    ((measure_store_update cache entity child ecm size cs).bounds child).map Bounds.height =
      (ecm.bounds child).map Bounds.height ∧
    (non_rows_and_columns entity ecm = true →
      ((measure_store_update cache entity child ecm size cs).bounds child).map Bounds.width =
        (ecm.bounds child).map Bounds.width) := by
  unfold measure_store_update
  dsimp only
  split
  case isTrue hmode =>
    cases hbc : ecm.bounds child with
    | none => simp [hbc]
    | some b => simp [hbc, Store.set_bounds, Bounds.set_x, Bounds.set_y]
  case isFalse hmode =>
    cases hbc : ecm.bounds child with
    | none => simp [hbc]
    | some b =>
      constructor
      · simp [hbc, Store.set_bounds, Bounds.set_x, Bounds.set_width, Bounds.set_y]
      · intro hcontra
        exact absurd hcontra hmode

/-! ## The container's own size and the start of a pass -/

lemma resolved_size_congr (entity : ℕ) (pc : Constraint) (ecm1 ecm2 : Store)
    (h1 : ecm1.constraint entity = ecm2.constraint entity)
    (h2 : ecm1.margin entity = ecm2.margin entity)
    (h3 : ecm1.horizontal_alignment entity = ecm2.horizontal_alignment entity)
    (h4 : ecm1.vertical_alignment entity = ecm2.vertical_alignment entity) :
    resolved_size entity ecm1 pc = resolved_size entity ecm2 pc := by
  unfold resolved_size get_vertical_alignment get_horizontal_alignment
  rw [h1, h2, h3, h4]

lemma resolved_size_measure_store_update (cache : ColumnsCache) (entity child : ℕ)
    (ecm : Store) (size cs : ℚ × ℚ) (pc : Constraint) :
    resolved_size entity (measure_store_update cache entity child ecm size cs) pc =
      resolved_size entity ecm pc := by
  obtain ⟨h1, h2, h3, h4, _, _, _⟩ :=
    measure_store_update_components cache entity child ecm size cs
  exact resolved_size_congr entity pc _ ecm (congrFun h1 entity) (congrFun h2 entity)
    (congrFun h3 entity) (congrFun h4 entity)

lemma compute_column_geometry_spec (entity : ℕ) (ecm : Store) (children : List ℕ)
    (sw : ℚ) (cache : ColumnsCache) :
    ∃ ecm2 cache2, compute_column_geometry entity ecm children sw cache = some (ecm2, cache2) ∧
      ecm2.constraint = ecm.constraint ∧
      ecm2.margin = ecm.margin ∧
      ecm2.horizontal_alignment = ecm.horizontal_alignment ∧
      ecm2.vertical_alignment = ecm.vertical_alignment ∧
      ecm2.bounds = ecm.bounds ∧
      ecm2.grid_column = ecm.grid_column ∧
      ecm2.column_span = ecm.column_span := by
  unfold compute_column_geometry
  cases hc : ecm.columns entity with
  | none => exact ⟨ecm, cache, rfl, rfl, rfl, rfl, rfl, rfl, rfl, rfl⟩
  | some cols =>
    dsimp only
    by_cases hlen : cols.length = 0
    · rw [if_pos hlen]
      exact ⟨ecm, cache, rfl, rfl, rfl, rfl, rfl, rfl, rfl, rfl⟩
    · rw [if_neg hlen]
      obtain ⟨c2, hbc, _⟩ := build_columns_cache_spec
        (stretch_distribute sw (apply_fixed_widths
          (apply_auto_widths (auto_column_widths entity ecm children) cols))) cache
      rw [hbc]
      exact ⟨_, c2, rfl, rfl, rfl, rfl, rfl, rfl, rfl, rfl⟩

lemma layout_empty_eq (st : GridState) (entity : ℕ) (ecm : Store) (pc : Constraint) :
    layout st entity ecm pc [] none =
      some (LayoutResult.Size (resolved_size entity ecm pc), st, ecm) := rfl

lemma layout_start_eq (st : GridState) (entity : ℕ) (ecm : Store) (pc : Constraint)
    (a : ℕ) (l : List ℕ) :
    ∃ ecm2 cache2,
      compute_column_geometry entity ecm (a :: l) (resolved_size entity ecm pc).1
          ColumnsCache.empty = some (ecm2, cache2) ∧
      ecm2.constraint = ecm.constraint ∧
      ecm2.margin = ecm.margin ∧
      ecm2.horizontal_alignment = ecm.horizontal_alignment ∧
      ecm2.vertical_alignment = ecm.vertical_alignment ∧
      ecm2.bounds = ecm.bounds ∧
      layout st entity ecm pc (a :: l) none =
        some (LayoutResult.RequestChild a (carried_constraint entity ecm pc),
          ⟨0, cache2⟩, ecm2) := by
  obtain ⟨ecm2, cache2, hgeo, h1, h2, h3, h4, h5, _, _⟩ :=
    compute_column_geometry_spec entity ecm (a :: l) (resolved_size entity ecm pc).1
      ColumnsCache.empty
  refine ⟨ecm2, cache2, hgeo, h1, h2, h3, h4, h5, ?_⟩
  unfold layout
  dsimp only
  rw [hgeo]
  simp [List.isEmpty_cons]

lemma layout_measure_oob (st : GridState) (entity : ℕ) (ecm : Store) (pc : Constraint)
    (children : List ℕ) (m : ℚ × ℚ) (h : children.length ≤ st.current_child) :
    layout st entity ecm pc children (some m) = none := by
  unfold layout
  rw [List.get?_eq_none.mpr h]

/-! ## Complete passes -/

lemma run_pass_from_size (entity : ℕ) (pc : Constraint) (children : List ℕ)
    (measure : ℕ → ℚ × ℚ) (fuel : ℕ) (st : GridState) (ecm : Store) (s : ℚ × ℚ) :
    run_pass_from entity pc children measure fuel st ecm (LayoutResult.Size s) =
      some ([], s, st, ecm) := by
  cases fuel <;> rfl

lemma run_pass_from_spec (entity : ℕ) (pc : Constraint) (children : List ℕ)
    (measure : ℕ → ℚ × ℚ) :
    ∀ (fuel : ℕ) (st : GridState) (ecm : Store) (c : Constraint)
      (hcur : st.current_child < children.length),
      children.length - st.current_child ≤ fuel →
      ∃ st3 ecm3,
        run_pass_from entity pc children measure fuel st ecm
            (LayoutResult.RequestChild (children.get ⟨st.current_child, hcur⟩) c) =
          some (children.drop st.current_child, resolved_size entity ecm pc, st3, ecm3) := by
  intro fuel
  induction fuel with
  | zero => intro st ecm c hcur hfuel; omega
  | succ fuel ih =>
    intro st ecm c hcur hfuel
    rw [run_pass_from]
    rw [layout_measure_eq st entity ecm pc children (measure (children.get ⟨st.current_child, hcur⟩)) hcur]
    dsimp only
    rw [List.drop_eq_getElem_cons hcur]
    by_cases hnext : st.current_child + 1 < children.length
    · rw [dif_pos hnext]
      obtain ⟨st3, ecm3, hrec⟩ := ih ⟨st.current_child + 1, st.columns_cache⟩
        (measure_store_update st.columns_cache entity (children.get ⟨st.current_child, hcur⟩)
          ecm (resolved_size entity ecm pc) (measure (children.get ⟨st.current_child, hcur⟩)))
        (carried_constraint entity ecm pc) hnext (by dsimp only; omega)
      rw [hrec]
      rw [resolved_size_measure_store_update]
      exact ⟨st3, ecm3, by simp⟩
    · rw [dif_neg hnext]
      rw [run_pass_from_size]
      dsimp only
      have hdrop : children.drop (st.current_child + 1) = [] :=
        List.drop_eq_nil_of_le (by omega)
      rw [hdrop]
      exact ⟨_, _, rfl⟩

lemma run_pass_spec (st : GridState) (entity : ℕ) (ecm : Store) (pc : Constraint)
    (children : List ℕ) (measure : ℕ → ℚ × ℚ) :
    ∃ st3 ecm3, run_pass st entity ecm pc children measure =
      some (children, resolved_size entity ecm pc, st3, ecm3) := by
  cases children with
  | nil =>
    exact ⟨st, ecm, rfl⟩
  | cons a l =>
    obtain ⟨ecm2, cache2, hgeo, h1, h2, h3, h4, h5, hlay⟩ :=
      layout_start_eq st entity ecm pc a l
    have hcur0 : (0 : ℕ) < (a :: l).length := by simp
    obtain ⟨st3, ecm3, hrec⟩ := run_pass_from_spec entity pc (a :: l) measure
      ((a :: l).length + 1) ⟨0, cache2⟩ ecm2 (carried_constraint entity ecm pc) hcur0
      (by omega)
    have hsz : resolved_size entity ecm2 pc = resolved_size entity ecm pc :=
      resolved_size_congr entity pc ecm2 ecm (congrFun h1 entity) (congrFun h2 entity)
        (congrFun h3 entity) (congrFun h4 entity)
    refine ⟨st3, ecm3, ?_⟩
    unfold run_pass
    rw [hlay]
    have hget : (a :: l).get ⟨0, hcur0⟩ = a := rfl
    rw [hget] at hrec
    dsimp only at hrec ⊢
    rw [hsz] at hrec
    exact hrec

/-! ## Claim theorems: empty children, advance order, frame effect, size
independence, cache invariants, totality -/

/-- **C2 (amended)** — with an empty children list the first call of a pass
returns `Done(S)` immediately, before any column geometry computation: the
store (the stretch columns' current widths included) and the per-pass state
are returned untouched. -/
theorem grid_empty_children_returns_size (st : GridState) (entity : ℕ) (ecm : Store)
    (pc : Constraint) :
    layout st entity ecm pc [] none =
      some (LayoutResult.Size (resolved_size entity ecm pc), st, ecm) :=
  layout_empty_eq st entity ecm pc

/-- **C3 (amended)** — a measurement-return call with the cursor in bounds
advances the cursor by one; while children remain the outcome is
`RequestChild` naming `children[cursor]` and carrying the container's own
constraint with width and height overwritten by the resolved size `S` (not
the default constraint), and once the cursor reaches `children.len()` the
outcome is `Done(S)`.  A complete pass requests each child exactly once, in
list order. -/
theorem grid_measure_advances_in_order (st : GridState) (entity : ℕ) (ecm : Store)
    (pc : Constraint) (children : List ℕ) (m : ℚ × ℚ)
    (h : st.current_child < children.length) :
    layout st entity ecm pc children (some m) =
      some
        (if hc : st.current_child + 1 < children.length
         then LayoutResult.RequestChild (children.get ⟨st.current_child + 1, hc⟩)
                (carried_constraint entity ecm pc)
         else LayoutResult.Size (resolved_size entity ecm pc),
         ⟨st.current_child + 1, st.columns_cache⟩,
         measure_store_update st.columns_cache entity (children.get ⟨st.current_child, h⟩) ecm
           (resolved_size entity ecm pc) m) ∧
    ∀ (st0 : GridState) (measure : ℕ → ℚ × ℚ),
      (run_pass st0 entity ecm pc children measure).map (fun r => r.1) = some children := by
  refine ⟨layout_measure_eq st entity ecm pc children m h, ?_⟩
  intro st0 measure
  obtain ⟨st3, ecm3, heq⟩ := run_pass_spec st0 entity ecm pc children measure
  rw [heq]
  rfl

/-- Witness for C3's amended theorem at a concrete input. -/
theorem grid_measure_advances_in_order_witness :
    0 < [1, 2].length ∧
      (layout ⟨0, ColumnsCache.empty⟩ 0 ecmC3 pc400 [1, 2] (some (40, 20)) =
        some
          (if hc : 0 + 1 < [1, 2].length
           then LayoutResult.RequestChild ([1, 2].get ⟨0 + 1, hc⟩)
                  (carried_constraint 0 ecmC3 pc400)
           else LayoutResult.Size (resolved_size 0 ecmC3 pc400),
           ⟨0 + 1, ColumnsCache.empty⟩,
           measure_store_update ColumnsCache.empty 0 1 ecmC3
             (resolved_size 0 ecmC3 pc400) (40, 20)) ∧
      ∀ (st0 : GridState) (measure : ℕ → ℚ × ℚ),
        (run_pass st0 0 ecmC3 pc400 [1, 2] measure).map (fun r => r.1) = some [1, 2]) :=
  ⟨by decide,
    grid_measure_advances_in_order ⟨0, ColumnsCache.empty⟩ 0 ecmC3 pc400 [1, 2] (40, 20)
      (by decide)⟩

/-- **C6** — after the column geometry of a pass populates the cache,
adjacent entries satisfy `offset (i+1) = offset i + width i`, entry 0 has
offset 0, and measurement-return calls never modify the cache for the rest
of the pass. -/
theorem grid_cache_offsets_adjacent (cols : List Column) (i : ℕ)
    (h : i + 1 < cols.length) :
    (∃ cache, build_columns_cache cols ColumnsCache.empty = some cache ∧
      cache 0 = some (0, col_width cols 0) ∧
      cache i = some (col_offset cols i, col_width cols i) ∧
      cache (i + 1) = some (col_offset cols i + col_width cols i, col_width cols (i + 1))) ∧
    ∀ (st : GridState) (entity : ℕ) (ecm : Store) (pc : Constraint) (children : List ℕ)
      (m : ℚ × ℚ) (res : LayoutResult) (st2 : GridState) (ecm2 : Store),
      layout st entity ecm pc children (some m) = some (res, st2, ecm2) →
      st2.columns_cache = st.columns_cache := by
  constructor
  · obtain ⟨c2, heq, hpt⟩ := build_columns_cache_spec cols ColumnsCache.empty
    refine ⟨c2, heq, ?_, ?_, ?_⟩
    · rw [hpt 0, if_pos (by omega)]
      rfl
    · rw [hpt i, if_pos (by omega)]
    · rw [hpt (i + 1), if_pos h]
      rfl
  · intro st entity ecm pc children m res st2 ecm2 heq
    by_cases hcur : st.current_child < children.length
    · rw [layout_measure_eq st entity ecm pc children m hcur] at heq
      have hst : st2 = (⟨st.current_child + 1, st.columns_cache⟩ : GridState) :=
        (congrArg (fun t => t.2.1) (Option.some.inj heq)).symm
      rw [hst]
    · rw [layout_measure_oob st entity ecm pc children m (by omega)] at heq
      exact Option.noConfusion heq

/-- Witness for C6 on the concrete 3-column list `colsC6`, at `i = 1`. -/
theorem grid_cache_offsets_adjacent_witness :
    1 + 1 < colsC6.length ∧
      ((∃ cache, build_columns_cache colsC6 ColumnsCache.empty = some cache ∧
        cache 0 = some (0, col_width colsC6 0) ∧
        cache 1 = some (col_offset colsC6 1, col_width colsC6 1) ∧
        cache (1 + 1) =
          some (col_offset colsC6 1 + col_width colsC6 1, col_width colsC6 (1 + 1))) ∧
      ∀ (st : GridState) (entity : ℕ) (ecm : Store) (pc : Constraint) (children : List ℕ)
        (m : ℚ × ℚ) (res : LayoutResult) (st2 : GridState) (ecm2 : Store),
        layout st entity ecm pc children (some m) = some (res, st2, ecm2) →
        st2.columns_cache = st.columns_cache) :=
  ⟨by decide, grid_cache_offsets_adjacent colsC6 1 (by decide)⟩

/-- **C8** — a measurement-return call writes only the measured child's
`Bounds`: every other component of every node is unchanged, the bounds of
every other node are unchanged, `Bounds.height` of the child is never
written, and in plain mode (`non_rows_and_columns`) `Bounds.width` is not
written either. -/
theorem grid_measure_frame_effect (st : GridState) (entity : ℕ) (ecm : Store)
    (pc : Constraint) (children : List ℕ) (m : ℚ × ℚ)
    (h : st.current_child < children.length) :
    ∃ res st2 ecm2, layout st entity ecm pc children (some m) = some (res, st2, ecm2) ∧
      ecm2.constraint = ecm.constraint ∧
      ecm2.margin = ecm.margin ∧
      ecm2.horizontal_alignment = ecm.horizontal_alignment ∧
      ecm2.vertical_alignment = ecm.vertical_alignment ∧
      ecm2.columns = ecm.columns ∧
      ecm2.grid_column = ecm.grid_column ∧
      ecm2.column_span = ecm.column_span ∧
      (∀ e, e ≠ children.get ⟨st.current_child, h⟩ → ecm2.bounds e = ecm.bounds e) ∧
      (ecm2.bounds (children.get ⟨st.current_child, h⟩)).map Bounds.height =
        (ecm.bounds (children.get ⟨st.current_child, h⟩)).map Bounds.height ∧
      (non_rows_and_columns entity ecm = true →
        (ecm2.bounds (children.get ⟨st.current_child, h⟩)).map Bounds.width =
          (ecm.bounds (children.get ⟨st.current_child, h⟩)).map Bounds.width) := by
  refine ⟨_, _, _, layout_measure_eq st entity ecm pc children m h, ?_⟩
  obtain ⟨h1, h2, h3, h4, h5, h6, h7⟩ := measure_store_update_components st.columns_cache
    entity (children.get ⟨st.current_child, h⟩) ecm (resolved_size entity ecm pc) m
  obtain ⟨hh, hw⟩ := measure_store_update_bounds_child st.columns_cache entity
    (children.get ⟨st.current_child, h⟩) ecm (resolved_size entity ecm pc) m
  exact ⟨h1, h2, h3, h4, h5, h6, h7,
    fun e he => measure_store_update_bounds_other st.columns_cache entity
      (children.get ⟨st.current_child, h⟩) ecm (resolved_size entity ecm pc) m e he,
    hh, hw⟩

/-- Witness for C8 at a concrete plain-mode input. -/
theorem grid_measure_frame_effect_witness :
    0 < [1].length ∧
      (∃ res st2 ecm2,
        layout ⟨0, ColumnsCache.empty⟩ 5 ecmC8 Constraint.default [1] (some (40, 20)) =
          some (res, st2, ecm2) ∧
        ecm2.constraint = ecmC8.constraint ∧
        ecm2.margin = ecmC8.margin ∧
        ecm2.horizontal_alignment = ecmC8.horizontal_alignment ∧
        ecm2.vertical_alignment = ecmC8.vertical_alignment ∧
        ecm2.columns = ecmC8.columns ∧
        ecm2.grid_column = ecmC8.grid_column ∧
        ecm2.column_span = ecmC8.column_span ∧
        (∀ e, e ≠ 1 → ecm2.bounds e = ecmC8.bounds e) ∧
        (ecm2.bounds 1).map Bounds.height = (ecmC8.bounds 1).map Bounds.height ∧
        (non_rows_and_columns 5 ecmC8 = true →
          (ecm2.bounds 1).map Bounds.width = (ecmC8.bounds 1).map Bounds.width)) :=
  ⟨by decide,
    grid_measure_frame_effect ⟨0, ColumnsCache.empty⟩ 5 ecmC8 Constraint.default [1]
      (40, 20) (by decide)⟩

/-- **C9** — the resolved size `S` returned in every `Done` outcome depends
only on the container's own `Constraint`, `Margin` and alignment components
together with the parent constraint: two stores that agree on those four
components at the container yield the same `resolved_size`, and every
`Size` outcome of `layout` equals `resolved_size`, whatever the children
list, child components or child measurement. -/
theorem grid_done_size_independent_of_children (entity : ℕ) (pc : Constraint)
    (ecm1 ecm2 : Store)
    (h1 : ecm1.constraint entity = ecm2.constraint entity)
    (h2 : ecm1.margin entity = ecm2.margin entity)
    (h3 : ecm1.horizontal_alignment entity = ecm2.horizontal_alignment entity)
    (h4 : ecm1.vertical_alignment entity = ecm2.vertical_alignment entity) :
    resolved_size entity ecm1 pc = resolved_size entity ecm2 pc ∧
    ∀ (st : GridState) (children : List ℕ) (cs : Option (ℚ × ℚ)) (s : ℚ × ℚ)
      (st2 : GridState) (ecm3 : Store),
      layout st entity ecm1 pc children cs = some (LayoutResult.Size s, st2, ecm3) →
      s = resolved_size entity ecm1 pc := by
  refine ⟨resolved_size_congr entity pc ecm1 ecm2 h1 h2 h3 h4, ?_⟩
  intro st children cs s st2 ecm3 heq
  cases cs with
  | some m =>
    by_cases hcur : st.current_child < children.length
    · rw [layout_measure_eq st entity ecm1 pc children m hcur] at heq
      have hres := congrArg (fun t => t.1) (Option.some.inj heq)
      dsimp only at hres
      by_cases hnext : st.current_child + 1 < children.length
      · rw [dif_pos hnext] at hres
        exact LayoutResult.noConfusion hres
      · rw [dif_neg hnext] at hres
        injection hres with h5
        exact h5.symm
    · rw [layout_measure_oob st entity ecm1 pc children m (by omega)] at heq
      exact Option.noConfusion heq
  | none =>
    cases children with
    | nil =>
      rw [layout_empty_eq] at heq
      have hres := congrArg (fun t => t.1) (Option.some.inj heq)
      dsimp only at hres
      injection hres with h5
      exact h5.symm
    | cons a l =>
      obtain ⟨ecm2x, cache2, _, _, _, _, _, _, hlay⟩ := layout_start_eq st entity ecm1 pc a l
      rw [hlay] at heq
      have hres := congrArg (fun t => t.1) (Option.some.inj heq)
      exact LayoutResult.noConfusion hres

/-- Witness for C9: two stores differing only in children-related data. -/
theorem grid_done_size_independent_of_children_witness :
    ecmC9a.constraint 0 = ecmC9b.constraint 0 ∧
    ecmC9a.margin 0 = ecmC9b.margin 0 ∧
    ecmC9a.horizontal_alignment 0 = ecmC9b.horizontal_alignment 0 ∧
    ecmC9a.vertical_alignment 0 = ecmC9b.vertical_alignment 0 ∧
      (resolved_size 0 ecmC9a pc400 = resolved_size 0 ecmC9b pc400 ∧
      ∀ (st : GridState) (children : List ℕ) (cs : Option (ℚ × ℚ)) (s : ℚ × ℚ)
        (st2 : GridState) (ecm3 : Store),
        layout st 0 ecmC9a pc400 children cs = some (LayoutResult.Size s, st2, ecm3) →
        s = resolved_size 0 ecmC9a pc400) :=
  ⟨rfl, rfl, rfl, rfl,
    grid_done_size_independent_of_children 0 pc400 ecmC9a ecmC9b rfl rfl rfl rfl⟩

/-- **C10** — under the driver contract a whole pass never panics: the
`Option`-encoded run (where `none` marks an out-of-bounds indexing or a failed
`unwrap`) always returns `some`. -/
theorem grid_layout_never_panics (st : GridState) (entity : ℕ) (ecm : Store)
    (pc : Constraint) (children : List ℕ) (measure : ℕ → ℚ × ℚ) :
    (run_pass st entity ecm pc children measure).isSome = true := by
  obtain ⟨st3, ecm3, heq⟩ := run_pass_spec st entity ecm pc children measure
  rw [heq]
  rfl

/-! ## Concrete evaluations: the auto-width slip and its consequences -/

attribute [simp] layout measure_store_update non_rows_and_columns compute_column_geometry
  auto_column_widths auto_width_step apply_auto_widths apply_auto_widths_from
  apply_fixed_widths stretch_distribute apply_stretch_widths used_width stretch_count
  build_columns_cache build_cache_step ColumnsCache.empty ColumnsCache.insert
  get_column_x_and_width span_width resolved_size carried_constraint Constraint.perform
  clampAxis Constraint.set_width Constraint.set_height Margin.default Alignment.default
  Alignment.align_width Alignment.align_height Alignment.align_x Alignment.align_y
  Alignment.align_length Alignment.align_offset get_margin get_vertical_alignment
  get_horizontal_alignment Store.set_bounds Store.set_columns Bounds.set_x Bounds.set_y
  Bounds.set_width Column.set_current_width run_pass run_pass_from col_width col_offset
  total_width ecmC1 ecmC2 ecmC3 ecmC5 colsC5 colsStretch2 c200 pc400 measC5
  Constraint.default

@[simp] lemma list_range_one : List.range 1 = [0] := by decide

@[simp] lemma list_range_two : List.range 2 = [0, 1] := by decide

@[simp] lemma cons_eq_nil_eq_false {α : Type _} (a : α) (l : List α) :
    ((a :: l) = ([] : List α)) = False :=
  eq_false (List.cons_ne_nil a l)

/-- **C2 (counterexample)** — container width 200 with `[Stretch, Stretch]`
columns and no children: the first call of the pass returns `Done (200, 100)`
with the columns untouched (current widths still 0, not 100 each), because
the empty-children early return precedes the column geometry computation. -/
theorem grid_empty_children_skips_geometry_cex :
    ((layout ⟨0, ColumnsCache.empty⟩ 0 ecmC2 pc400 [] none).map
      (fun p => (p.1, p.2.2.columns 0))) =
      some (LayoutResult.Size (200, 100), some colsStretch2) ∧
    colsStretch2 ≠ [⟨ColumnWidth.Stretch, (100 : ℚ)⟩, ⟨ColumnWidth.Stretch, 100⟩] := by
  constructor
  · norm_num
  · norm_num [colsStretch2]

/-- **C3 (counterexample)** — a measurement-return call of a container whose
own constraint is `c200` returns `Continue` carrying `c200` (the container's
constraint with the resolved size written into it), which differs from the
default constraint: the outcome does not carry the default constraint. -/
theorem grid_request_constraint_not_default_cex :
    ((layout ⟨0, ColumnsCache.empty⟩ 0 ecmC3 pc400 [1, 2] (some (40, 20))).map
      (fun p => p.1)) = some (LayoutResult.RequestChild 2 c200) ∧
    c200 ≠ Constraint.default := by
  constructor
  · norm_num
  · norm_num [c200, Constraint.default]

/-- **C1** — the column-geometry computation on a fresh `Auto` column with
children of constraint widths 80 and then 50 (zero margins) resolves the
column's current width to 50, the value of the *last* child whose width
exceeds the stale stored width — not the maximum 80 the claim (and the
source comment "sets auto columns width to the width of the largest child")
prescribe. -/
theorem grid_auto_width_last_wins :
    ((compute_column_geometry 0 ecmC1 [1, 2] 200 ColumnsCache.empty).map
      (fun p => p.1.columns 0)) = some (some [⟨ColumnWidth.Auto, 50⟩]) ∧
    (50 : ℚ) ≠ max 80 50 := by
  constructor
  · norm_num
  · norm_num

/-- **C5** — two consecutive complete passes over the same container with
unchanged external inputs give child 3 the x offset 50 after the first pass
but 80 after the second: the stale-baseline auto-width comparison makes the
second pass resolve the `Auto` column differently, so a re-pass is not an
idempotent replay. -/
theorem grid_repass_not_idempotent :
    ((run_pass ⟨0, ColumnsCache.empty⟩ 0 ecmC5 pc400 [1, 2, 3] measC5).bind fun r1 =>
      (run_pass r1.2.2.1 0 r1.2.2.2 pc400 [1, 2, 3] measC5).map fun r2 =>
        ((r1.2.2.2.bounds 3).map Bounds.x, (r2.2.2.2.bounds 3).map Bounds.x)) =
      some (some 50, some 80) ∧ (50 : ℚ) ≠ 80 := by
  constructor
  · norm_num
  · norm_num

end Orbtk
